import Mathlib

/-!
# Liquid-level mass-property evaluator for tank shapes: formal model

This file is a shallow embedding of the CadQuery-based tank-geometry
validation notebook.  The notebook builds a solid of revolution around the
z-axis (a sphere of radius `R` centered at the origin, or the union of a
cylinder of radius `r` and straight length `L - 2r` with two spherical caps
of the same radius `r` centered at `z = ±(L/2 - r)`), then boolean-cuts a
coaxial "drill" cylinder of the same radius spanning
`z ∈ [level_height, level_height + drill_height]` (with
`drill_height = 10*R` for the sphere and `10*L` for the capped cylinder),
and finally reads three mass properties off the CAD kernel: the volume, the
z-coordinate of the center of mass, and
`matrixOfInertia[0][0] + volume * center_of_mass_z^2`, where
`matrixOfInertia[0][0]` is the x-x moment of inertia about the center of
mass of the (unit-density) solid.

Mathematical semantics used by the embedding.  Every solid involved is a
coaxial body of revolution, and the cross-section of the tank solid at
height z is a disk whose radius never exceeds the drill radius.  Hence the
cut removes exactly the full slices with z in
`[level_height, level_height + drill_height]`, and by Fubini each mass
property is an integral over the surviving z-interval(s)
`[bottom, e1] ∪ [e2, top]` where `e1 = clamp(level_height)` and
`e2 = clamp(level_height + drill_height)` (clamped to the solid piece in
question).  For a slice of cross-section area `A(z)`:
  volume        = ∫ A(z) dz,
  first moment  = ∫ z * A(z) dz        (center of mass = moment / volume),
  Ixx at origin = ∫ (a(z)^2/4 + z^2) * A(z) dz   with `A = π a^2`
(the thin-disk slice of radius `a` has Ixx about its own diameter `a^2/4`
times its mass, plus the parallel-axis term `z^2`).

Scaling convention: every quantity carries one global factor of π
(cross-section areas are `π a^2`).  Throughout the file that factor is
divided out, so all definitions are exact rational numbers: a value `v`
here corresponds to `π * v` in the notebook.  The center of mass, a ratio
of two such quantities, is unaffected.  All claims compared against this
model are themselves homogeneous of degree one in that common factor, so
nothing is lost by the normalization.

All antiderivatives below are straightforward closed forms of the slice
integrands and are documented next to their definitions.
-/

set_option maxHeartbeats 1600000

namespace TankGeometry

/-- Clamp `x` into the interval `[a, b]` (for `a ≤ b`). -/
def clampI (a b x : ℚ) : ℚ := max a (min b x)

/-- Antiderivative in `z` of the sphere slice area (divided by π)
`p^2 - (z - c)^2` for a sphere of radius `p` centered at height `c`. -/
def sphV (p c z : ℚ) : ℚ := p ^ 2 * (z - c) - (z - c) ^ 3 / 3

/-- Antiderivative of `z * (p^2 - (z - c)^2)`: the first-moment density of a
sphere slice about the global origin. -/
def sphM (p c z : ℚ) : ℚ :=
  p ^ 2 * (z - c) ^ 2 / 2 - (z - c) ^ 4 / 4 + c * (p ^ 2 * (z - c) - (z - c) ^ 3 / 3)

/-- Antiderivative of `z^2 * (p^2 - (z - c)^2)`: the parallel-axis part of the
transverse inertia density of a sphere slice, about the global origin. -/
def sphIb (p c z : ℚ) : ℚ :=
  (p ^ 2 * (z - c) ^ 3 / 3 - (z - c) ^ 5 / 5)
    + c * (p ^ 2 * (z - c) ^ 2 - (z - c) ^ 4 / 2)
    + c ^ 2 * (p ^ 2 * (z - c) - (z - c) ^ 3 / 3)

/-- Antiderivative of `(p^2 - (z - c)^2)^2 / 4`: the in-plane (thin-disk)
part of the transverse inertia density of a sphere slice. -/
def sphIa (p c z : ℚ) : ℚ :=
  (p ^ 4 * (z - c) - 2 * p ^ 2 * (z - c) ^ 3 / 3 + (z - c) ^ 5 / 5) / 4

/-- Antiderivative of the full transverse inertia density
`(a^2/4 + z^2) * a^2` with `a^2 = p^2 - (z - c)^2`, about the origin. -/
def sphI (p c z : ℚ) : ℚ := sphIa p c z + sphIb p c z

/-- Antiderivative of the straight cylinder slice area (divided by π) `r^2`. -/
def cylV (r z : ℚ) : ℚ := r ^ 2 * z

/-- Antiderivative of `z * r^2` for the straight cylinder section. -/
def cylM (r z : ℚ) : ℚ := r ^ 2 * z ^ 2 / 2

/-- Antiderivative of `(r^2/4 + z^2) * r^2` for the straight cylinder
section: transverse inertia density about the origin. -/
def cylI (r z : ℚ) : ℚ := r ^ 4 * z / 4 + r ^ 2 * z ^ 3 / 3

/-- Contribution of one solid piece with z-extent `[a, b]` and antiderivative
`F` after the drill cut `[c1, c2]` is removed: what survives of the piece is
`[a, clamp c1] ∪ [clamp c2, b]`, so the measure is
`(F (clamp c1) - F a) + (F b - F (clamp c2))`. -/
def sliceSum (F : ℚ → ℚ) (a b c1 c2 : ℚ) : ℚ :=
  (F (clampI a b c1) - F a) + (F b - F (clampI a b c2))

/-- Volume (divided by π) returned by `evaluate_sphere_parameters`: the
sphere of radius `R` centered at the origin, minus the drill
`[h, h + 10*R]`. -/
def sphere_volume (R h : ℚ) : ℚ := sliceSum (sphV R 0) (-R) R h (h + 10 * R)

/-- First moment (divided by π) of the filled part of the sphere. -/
def sphere_moment (R h : ℚ) : ℚ := sliceSum (sphM R 0) (-R) R h (h + 10 * R)

/-- Transverse moment of inertia (divided by π) of the filled part of the
sphere about the x-axis through the origin. -/
def sphere_inertia_origin (R h : ℚ) : ℚ := sliceSum (sphI R 0) (-R) R h (h + 10 * R)

/-- The z-coordinate of the center of mass returned by
`evaluate_sphere_parameters` (`centerOfMass.z`): first moment over volume.
By the rational-division convention an empty solid (volume 0) yields 0,
matching the CAD kernel, which reports the origin for a null solid. -/
def sphere_center_of_mass (R h : ℚ) : ℚ := sphere_moment R h / sphere_volume R h

/-- The `matrixOfInertia[0][0]` entry of the CAD kernel: the x-x inertia
about the center of mass, i.e. the origin inertia minus the parallel-axis
term `volume * center_of_mass_z^2`. -/
def sphere_matrix_of_inertia_xx (R h : ℚ) : ℚ :=
  sphere_inertia_origin R h - sphere_volume R h * (sphere_center_of_mass R h) ^ 2

/-- The inertia value returned by `evaluate_sphere_parameters`:
`inertia_tensor[0][0] + volume * center_of_mass.z**2`, exactly as in the
notebook source. -/
def sphere_inertia (R h : ℚ) : ℚ :=
  sphere_matrix_of_inertia_xx R h + sphere_volume R h * (sphere_center_of_mass R h) ^ 2

/-- Central (centroidal-axis) transverse moment of inertia of the filled
region, written intrinsically: `∫ (a^2/4 + (z - zbar)^2) dA`
`= I_origin - 2 zbar M + zbar^2 V` with `zbar` the center of mass. -/
def sphere_central_moment (R h : ℚ) : ℚ :=
  sphere_inertia_origin R h - 2 * sphere_center_of_mass R h * sphere_moment R h
    + (sphere_center_of_mass R h) ^ 2 * sphere_volume R h

/-- The triple `(volume, center_of_mass_z, inertia)` returned by the
notebook function `evaluate_sphere_parameters` (π divided out of the first
and third components). -/
def evaluate_sphere_parameters (radius level_height : ℚ) : ℚ × ℚ × ℚ :=
  (sphere_volume radius level_height, sphere_center_of_mass radius level_height,
    sphere_inertia radius level_height)

/-- Volume (divided by π) returned by `evaluate_cylinder_with_caps` for a
capped cylinder of total length `L` and radius `r`.  The solid is the union
of the straight section (extent `[r - L/2, L/2 - r]`), a bottom spherical
cap piece `[-L/2, r - L/2]` of the sphere centered at `r - L/2`, and a top
cap piece `[L/2 - r, L/2]` of the sphere centered at `L/2 - r`; on each
piece the cross-section of the union equals that of the named sub-solid.
The drill spans `[h, h + 10*L]`. -/
def cylinder_volume (L r h : ℚ) : ℚ :=
  sliceSum (sphV r (r - L / 2)) (-(L / 2)) (r - L / 2) h (h + 10 * L)
    + sliceSum (cylV r) (r - L / 2) (L / 2 - r) h (h + 10 * L)
    + sliceSum (sphV r (L / 2 - r)) (L / 2 - r) (L / 2) h (h + 10 * L)

/-- First moment (divided by π) of the filled part of the capped cylinder. -/
def cylinder_moment (L r h : ℚ) : ℚ :=
  sliceSum (sphM r (r - L / 2)) (-(L / 2)) (r - L / 2) h (h + 10 * L)
    + sliceSum (cylM r) (r - L / 2) (L / 2 - r) h (h + 10 * L)
    + sliceSum (sphM r (L / 2 - r)) (L / 2 - r) (L / 2) h (h + 10 * L)

/-- Transverse inertia (divided by π) of the filled part of the capped
cylinder about the x-axis through the origin. -/
def cylinder_inertia_origin (L r h : ℚ) : ℚ :=
  sliceSum (sphI r (r - L / 2)) (-(L / 2)) (r - L / 2) h (h + 10 * L)
    + sliceSum (cylI r) (r - L / 2) (L / 2 - r) h (h + 10 * L)
    + sliceSum (sphI r (L / 2 - r)) (L / 2 - r) (L / 2) h (h + 10 * L)

/-- Center of mass z-coordinate returned by `evaluate_cylinder_with_caps`. -/
def cylinder_center_of_mass (L r h : ℚ) : ℚ := cylinder_moment L r h / cylinder_volume L r h

/-- The `matrixOfInertia[0][0]` entry for the capped cylinder: inertia about
the centroidal x-axis. -/
def cylinder_matrix_of_inertia_xx (L r h : ℚ) : ℚ :=
  cylinder_inertia_origin L r h - cylinder_volume L r h * (cylinder_center_of_mass L r h) ^ 2

/-- The inertia value returned by `evaluate_cylinder_with_caps`:
`inertia_tensor[0][0] + volume * center_of_mass.z**2`. -/
def cylinder_inertia (L r h : ℚ) : ℚ :=
  cylinder_matrix_of_inertia_xx L r h
    + cylinder_volume L r h * (cylinder_center_of_mass L r h) ^ 2

/-- Central transverse moment of inertia of the filled region of the capped
cylinder, written intrinsically (same algebra as `sphere_central_moment`). -/
def cylinder_central_moment (L r h : ℚ) : ℚ :=
  cylinder_inertia_origin L r h - 2 * cylinder_center_of_mass L r h * cylinder_moment L r h
    + (cylinder_center_of_mass L r h) ^ 2 * cylinder_volume L r h

/-- The triple `(volume, center_of_mass_z, inertia)` returned by the
notebook function `evaluate_cylinder_with_caps`. -/
def evaluate_cylinder_with_caps (total_length radius level_height : ℚ) : ℚ × ℚ × ℚ :=
  (cylinder_volume total_length radius level_height,
    cylinder_center_of_mass total_length radius level_height,
    cylinder_inertia total_length radius level_height)

/-- Full sphere volume (divided by π): `4 R^3 / 3`. -/
def sphere_full_volume (R : ℚ) : ℚ := 4 * R ^ 3 / 3

/-- Full capped-cylinder volume (divided by π): straight section plus two
hemispheres. -/
def cylinder_full_volume (L r : ℚ) : ℚ := r ^ 2 * (L - 2 * r) + 4 * r ^ 3 / 3

/-- Full capped-cylinder transverse inertia about the origin (divided by π),
in closed form with cap offset `z0 = L/2 - r`: the two hemispheres
contribute the full-sphere central inertia `8 r^5 / 15` plus offset terms,
the straight section contributes `r^4 z0 / 2 + 2 r^2 z0^3 / 3`. -/
def cylinder_full_inertia (L r : ℚ) : ℚ :=
  8 * r ^ 5 / 15 + 3 * r ^ 4 * (L / 2 - r) / 2 + 4 * r ^ 3 * (L / 2 - r) ^ 2 / 3
    + 2 * r ^ 2 * (L / 2 - r) ^ 3 / 3

/-- The `np.linspace(a, b, n)` sample points used by the notebook loops:
`n` equally spaced points from `a` to `b`, both endpoints included. -/
def linspace (a b : ℚ) (n : ℕ) : List ℚ :=
  (List.range n).map (fun i : ℕ => a + (b - a) * (i : ℚ) / ((n : ℚ) - 1))

/-- The rows tabulated for the sphere by the notebook loop: for each sampled
level `h` in `np.linspace(-radius, radius, 25)` the record
`[h, volume, center_of_mass, inertia]`, mirroring
`datapoints.append([h, *evaluate_sphere_parameters(radius, h)])`. -/
def sphere_expected_rows (R : ℚ) : List (List ℚ) :=
  (linspace (-R) R 25).map
    (fun h => [h, sphere_volume R h, sphere_center_of_mass R h, sphere_inertia R h])

/-- The rows tabulated for a capped cylinder by the notebook loop, sampling
`np.linspace(-length/2, length/2, 25)`. -/
def cylinder_expected_rows (L r : ℚ) : List (List ℚ) :=
  (linspace (-(L / 2)) (L / 2) 25).map
    (fun h => [h, cylinder_volume L r h, cylinder_center_of_mass L r h, cylinder_inertia L r h])

/-- The header row written by `export_expected_parameters`, in the fixed
column order of the source. -/
def expected_header : List String := ["level_height", "volume", "center_of_mass", "inertia"]

/-- Closed form of the i-th sphere sample level: `-R + 2R i / 24`. -/
def sphere_level (R : ℚ) (i : ℕ) : ℚ := -R + 2 * R * (i : ℚ) / 24

/-- Closed form of the i-th cylinder sample level: `-L/2 + L i / 24`. -/
def cylinder_level (L : ℚ) (i : ℕ) : ℚ := -(L / 2) + L * (i : ℚ) / 24

/-- Modelled from the spec: the error raised at `TankShape` construction
time.  The constructors of `SphericalTank` and `CylindricalTank` are not
part of the supplied sources (only the notebook that calls them is), so the
configuration-validation behavior is taken from the specification: a
configuration error is reported for non-positive radius or length, or for
cap/cylinder dimensions that are geometrically inconsistent (cap diameter
exceeding the total length, leaving a negative straight-section length). -/
inductive ConfigurationError
  | nonPositiveDimension
  | inconsistentCapGeometry

/-- Modelled from the spec: the validated immutable shape value, a tagged
union `Sphere {radius}` or
`CylinderWithCaps {cylinder_radius, cylinder_length, cap_radius}`. -/
inductive TankShape
  | sphere (radius : ℚ)
  | cylinderWithCaps (cylinder_radius cylinder_length cap_radius : ℚ)

/-- Modelled from the spec: `SphericalTank` construction, rejecting a
non-positive radius immediately and otherwise storing the radius
unchanged. -/
def mkSphericalTank (radius : ℚ) : Except ConfigurationError TankShape :=
  if radius ≤ 0 then Except.error ConfigurationError.nonPositiveDimension
  else Except.ok (TankShape.sphere radius)

/-- Modelled from the spec: `CylindricalTank` construction with hemispherical
caps.  Rejects non-positive radius or total length, and cap diameter
exceeding the total length (negative straight section); otherwise stores the
dimensions exactly as given (`cylinder_length = total_length - 2*radius`,
`cap_radius = radius`), with no silent adjustment. -/
def mkCylindricalTank (radius total_length : ℚ) : Except ConfigurationError TankShape :=
  if radius ≤ 0 ∨ total_length ≤ 0 then Except.error ConfigurationError.nonPositiveDimension
  else if total_length < 2 * radius then Except.error ConfigurationError.inconsistentCapGeometry
  else Except.ok (TankShape.cylinderWithCaps radius (total_length - 2 * radius) radius)

/-- Total height of a validated shape, as exposed by the tank factory. -/
def TankShape.total_height : TankShape → ℚ
  | TankShape.sphere radius => 2 * radius
  | TankShape.cylinderWithCaps _ len cap => len + 2 * cap

/-- Evaluation dispatch on a validated shape: evaluation is only defined on
a `TankShape`, which exists only if construction succeeded, so no
evaluation can proceed for a rejected configuration. -/
def evaluate_tank_parameters (s : TankShape) (level_height : ℚ) : ℚ × ℚ × ℚ :=
  match s with
  | TankShape.sphere radius => evaluate_sphere_parameters radius level_height
  | TankShape.cylinderWithCaps r len cap =>
      evaluate_cylinder_with_caps (len + 2 * cap) r level_height

/-- The positive-semidefiniteness package of a measure triple
`(volume, first moment, origin inertia)` of a region: volume and inertia
are non-negative and the first moment satisfies the Cauchy-Schwarz bound
`M^2 ≤ V * I`.  This is what the parallel-axis/centroid algebra needs. -/
def PSD (V M I : ℚ) : Prop := 0 ≤ V ∧ 0 ≤ I ∧ M ^ 2 ≤ V * I

/-! ## Clamp and slice-sum resolution lemmas -/

lemma clampI_of_mem {a b x : ℚ} (h1 : a ≤ x) (h2 : x ≤ b) : clampI a b x = x := by
  unfold clampI
  rw [min_eq_right h2, max_eq_right h1]

lemma clampI_of_le {a b x : ℚ} (h : x ≤ a) : clampI a b x = a := by
  unfold clampI
  exact max_eq_left (le_trans (min_le_right b x) h)

lemma clampI_of_ge {a b x : ℚ} (hab : a ≤ b) (h : b ≤ x) : clampI a b x = b := by
  unfold clampI
  rw [min_eq_left h, max_eq_right hab]

lemma clampI_le {a b x : ℚ} (hab : a ≤ b) : clampI a b x ≤ b :=
  max_le hab (min_le_left b x)

lemma le_clampI {a b x : ℚ} : a ≤ clampI a b x := le_max_left a (min b x)

lemma clampI_clampI {A B a b x : ℚ} (hAa : A ≤ a) (hab : a ≤ b) (hbB : b ≤ B) :
    clampI a b (clampI A B x) = clampI a b x := by
  rcases le_total x A with h | h
  · rw [clampI_of_le h, clampI_of_le hAa, clampI_of_le (le_trans h hAa)]
  · rcases le_total x B with h2 | h2
    · rw [clampI_of_mem h h2]
    · rw [clampI_of_ge (le_trans hAa (le_trans hab hbB)) h2, clampI_of_ge hab hbB]
      exact (clampI_of_ge hab (le_trans hbB h2)).symm

lemma clampI_eq_of_ge_both {a b x y : ℚ} (hab : a ≤ b) (hx : b ≤ x) (hy : b ≤ y) :
    clampI a b x = clampI a b y := by
  rw [clampI_of_ge hab hx, clampI_of_ge hab hy]

lemma sliceSum_in (F : ℚ → ℚ) {a b c1 c2 : ℚ} (hab : a ≤ b) (h1 : a ≤ c1) (h2 : c1 ≤ b)
    (h3 : b ≤ c2) : sliceSum F a b c1 c2 = F c1 - F a := by
  unfold sliceSum
  rw [clampI_of_mem h1 h2, clampI_of_ge hab h3]
  ring

lemma sliceSum_above (F : ℚ → ℚ) {a b c1 c2 : ℚ} (hab : a ≤ b) (h1 : c1 ≤ a) (h3 : b ≤ c2) :
    sliceSum F a b c1 c2 = 0 := by
  unfold sliceSum
  rw [clampI_of_le h1, clampI_of_ge hab h3]
  ring

lemma sliceSum_below (F : ℚ → ℚ) {a b c1 c2 : ℚ} (hab : a ≤ b) (h1 : b ≤ c1) (h3 : b ≤ c2) :
    sliceSum F a b c1 c2 = F b - F a := by
  unfold sliceSum
  rw [clampI_of_ge hab h1, clampI_of_ge hab h3]
  ring

lemma sliceSum_congr (F : ℚ → ℚ) {a b x1 x2 y1 y2 : ℚ} (e1 : clampI a b x1 = clampI a b y1)
    (e2 : clampI a b x2 = clampI a b y2) : sliceSum F a b x1 x2 = sliceSum F a b y1 y2 := by
  unfold sliceSum
  rw [e1, e2]

/-! ## Positive-semidefiniteness of slice measure triples

Each lemma below certifies, for one family of z-slices of a base solid, that
the triple (volume, first moment, origin inertia) satisfies `PSD`.  The
Cauchy-Schwarz component is proved through explicit polynomial certificates
(translation-invariant discriminant identities verified by `ring`). -/

lemma PSD.add {V1 M1 I1 V2 M2 I2 : ℚ} (p : PSD V1 M1 I1) (q : PSD V2 M2 I2) :
    PSD (V1 + V2) (M1 + M2) (I1 + I2) := by
  obtain ⟨hV1, hI1, hC1⟩ := p
  obtain ⟨hV2, hI2, hC2⟩ := q
  refine ⟨by linarith, by linarith, ?_⟩
  have cross : 2 * M1 * M2 ≤ V1 * I2 + V2 * I1 := by
    rcases eq_or_lt_of_le hV1 with h1 | h1
    · have hM1 : M1 = 0 := by
        have hz : M1 ^ 2 ≤ 0 := by rw [← h1] at hC1; simpa using hC1
        have := sq_nonneg M1
        have : M1 ^ 2 = 0 := le_antisymm hz this
        exact pow_eq_zero_iff (by norm_num) |>.mp this
      rw [hM1, ← h1]
      simpa using mul_nonneg hV2 hI1
    · rcases eq_or_lt_of_le hV2 with h2 | h2
      · have hM2 : M2 = 0 := by
          have hz : M2 ^ 2 ≤ 0 := by rw [← h2] at hC2; simpa using hC2
          have := sq_nonneg M2
          have : M2 ^ 2 = 0 := le_antisymm hz this
          exact pow_eq_zero_iff (by norm_num) |>.mp this
        rw [hM2, ← h2]
        simpa using mul_nonneg (le_of_lt h1) hI2
      · have key : V1 * V2 * (V1 * I2 + V2 * I1 - 2 * M1 * M2)
            = V1 ^ 2 * (V2 * I2 - M2 ^ 2) + V2 ^ 2 * (V1 * I1 - M1 ^ 2)
              + (V1 * M2 - V2 * M1) ^ 2 := by ring
        have hnn : 0 ≤ V1 * V2 * (V1 * I2 + V2 * I1 - 2 * M1 * M2) := by
          rw [key]
          exact add_nonneg (add_nonneg (mul_nonneg (sq_nonneg V1) (sub_nonneg.mpr hC2))
            (mul_nonneg (sq_nonneg V2) (sub_nonneg.mpr hC1))) (sq_nonneg _)
        have := nonneg_of_mul_nonneg_right hnn (mul_pos h1 h2)
        linarith
  have expand : (V1 + V2) * (I1 + I2) - (M1 + M2) ^ 2
      = (V1 * I1 - M1 ^ 2) + (V2 * I2 - M2 ^ 2) + (V1 * I2 + V2 * I1 - 2 * M1 * M2) := by
    ring
  linarith [expand, sub_nonneg.mpr hC1, sub_nonneg.mpr hC2]

/-! ## Small scalar positivity certificates -/

lemma quad_cert_twenty (p t : ℚ) : 0 ≤ 3 * t ^ 2 - 15 * p * t + 20 * p ^ 2 := by
  nlinarith [sq_nonneg (2 * t - 5 * p), sq_nonneg p]

lemma quad_cert_forty (p t : ℚ) (hp : 0 ≤ p) (h2 : t ≤ 2 * p) :
    0 ≤ 40 * p ^ 2 - 24 * p * t + 3 * t ^ 2 := by
  nlinarith [sq_nonneg (2 * p - t), mul_nonneg hp (sub_nonneg.mpr h2), sq_nonneg p]

lemma sq_cert_three (p t : ℚ) (h0 : 0 ≤ t) (htp : t ≤ p) : 0 ≤ 3 * p ^ 2 - t ^ 2 := by
  nlinarith [mul_self_le_mul_self h0 htp, sq_nonneg p]

lemma quart_cert_fifteen (p t : ℚ) (h0 : 0 ≤ t) (htp : t ≤ p) :
    0 ≤ 15 * p ^ 4 - 10 * p ^ 2 * t ^ 2 + 3 * t ^ 4 := by
  nlinarith [mul_nonneg (sq_nonneg p) (sub_nonneg.mpr (mul_self_le_mul_self h0 htp)),
    sq_nonneg (p ^ 2), sq_nonneg (t ^ 2)]

lemma quart_cert_sixty (p t : ℚ) (h0 : 0 ≤ t) (htp : t ≤ p) :
    0 ≤ 60 * p ^ 4 - 44 * p ^ 2 * t ^ 2 + 3 * t ^ 4 := by
  nlinarith [mul_nonneg (sq_nonneg p) (sub_nonneg.mpr (mul_self_le_mul_self h0 htp)),
    sq_nonneg (p ^ 2), sq_nonneg (t ^ 2)]

/-- Slice of a sphere of radius `p` centered at `c`, pinned at the bottom of
the sphere: z-interval `[c - p, y]`. -/
lemma PSD_sph_bottom (p c y : ℚ) (h1 : c - p ≤ y) (h2 : y ≤ c + p) :
    PSD (sphV p c y - sphV p c (c - p)) (sphM p c y - sphM p c (c - p))
      (sphI p c y - sphI p c (c - p)) := by
  have hp : 0 ≤ p := by linarith
  have ht0 : 0 ≤ y - c + p := by linarith
  have ht2 : y - c + p ≤ 2 * p := by linarith
  have h6 : 0 ≤ (y - c + p) ^ 6 := by positivity
  have hV : sphV p c y - sphV p c (c - p)
      = (y - c + p) ^ 2 * (3 * p - (y - c + p)) / 3 := by
    simp only [sphV]
    ring
  have hVnn : 0 ≤ sphV p c y - sphV p c (c - p) := by
    rw [hV]
    exact div_nonneg (mul_nonneg (sq_nonneg _) (by linarith)) (by norm_num)
  have hIa : sphIa p c y - sphIa p c (c - p)
      = (y - c + p) ^ 3 * (3 * (y - c + p) ^ 2 - 15 * p * (y - c + p) + 20 * p ^ 2) / 60 := by
    simp only [sphIa]
    ring
  have hIaq : 0 ≤ 3 * (y - c + p) ^ 2 - 15 * p * (y - c + p) + 20 * p ^ 2 :=
    quad_cert_twenty p (y - c + p)
  have hIann : 0 ≤ sphIa p c y - sphIa p c (c - p) := by
    rw [hIa]
    exact div_nonneg (mul_nonneg (pow_nonneg ht0 3) hIaq) (by norm_num)
  have hIbkey : (sphV p c y - sphV p c (c - p)) * (sphIb p c y - sphIb p c (c - p))
      = (c * (sphV p c y - sphV p c (c - p))
          + (p * (y - c + p) ^ 3 - (y - c + p) ^ 4 / 4 - p ^ 2 * (y - c + p) ^ 2)) ^ 2
        + (y - c + p) ^ 6 * (40 * p ^ 2 - 24 * p * (y - c + p) + 3 * (y - c + p) ^ 2) / 720 := by
    simp only [sphV, sphIb]
    ring
  have hcert : 0 ≤ 40 * p ^ 2 - 24 * p * (y - c + p) + 3 * (y - c + p) ^ 2 :=
    quad_cert_forty p (y - c + p) hp ht2
  have hIbnn : 0 ≤ sphIb p c y - sphIb p c (c - p) := by
    rcases eq_or_lt_of_le ht0 with h0 | h0
    · have hy : y = c - p := by linarith
      rw [hy]
      simp
    · have hVpos : 0 < sphV p c y - sphV p c (c - p) := by
        rw [hV]
        exact div_pos (mul_pos (pow_pos h0 2) (by linarith)) (by norm_num)
      have hprod : 0 ≤ (sphV p c y - sphV p c (c - p)) * (sphIb p c y - sphIb p c (c - p)) := by
        rw [hIbkey]
        exact add_nonneg (sq_nonneg _) (div_nonneg (mul_nonneg h6 hcert) (by norm_num))
      exact nonneg_of_mul_nonneg_right hprod hVpos
  have hCS : (sphM p c y - sphM p c (c - p)) ^ 2
      ≤ (sphV p c y - sphV p c (c - p)) * (sphI p c y - sphI p c (c - p)) := by
    have key : (sphV p c y - sphV p c (c - p)) * (sphI p c y - sphI p c (c - p))
        - (sphM p c y - sphM p c (c - p)) ^ 2
        = (sphV p c y - sphV p c (c - p)) * (sphIa p c y - sphIa p c (c - p))
          + (y - c + p) ^ 6 * (40 * p ^ 2 - 24 * p * (y - c + p) + 3 * (y - c + p) ^ 2) / 720 := by
      simp only [sphV, sphM, sphI, sphIa, sphIb]
      ring
    have h1 : 0 ≤ (sphV p c y - sphV p c (c - p)) * (sphIa p c y - sphIa p c (c - p)) :=
      mul_nonneg hVnn hIann
    have h2 : 0 ≤ (y - c + p) ^ 6
        * (40 * p ^ 2 - 24 * p * (y - c + p) + 3 * (y - c + p) ^ 2) / 720 :=
      div_nonneg (mul_nonneg h6 hcert) (by norm_num)
    linarith [key, h1, h2]
  refine ⟨hVnn, ?_, hCS⟩
  have : sphI p c y - sphI p c (c - p)
      = (sphIa p c y - sphIa p c (c - p)) + (sphIb p c y - sphIb p c (c - p)) := by
    simp only [sphI]
    ring
  linarith [this, hIann, hIbnn]

/-- Slice of a sphere of radius `p` centered at `c`, pinned at the top of
the sphere: z-interval `[x, c + p]`.  Mirror image of `PSD_sph_bottom`. -/
lemma PSD_sph_top (p c x : ℚ) (h1 : c - p ≤ x) (h2 : x ≤ c + p) :
    PSD (sphV p c (c + p) - sphV p c x) (sphM p c (c + p) - sphM p c x)
      (sphI p c (c + p) - sphI p c x) := by
  have hp : 0 ≤ p := by linarith
  have ht0 : 0 ≤ c + p - x := by linarith
  have ht2 : c + p - x ≤ 2 * p := by linarith
  have h6 : 0 ≤ (c + p - x) ^ 6 := by positivity
  have hV : sphV p c (c + p) - sphV p c x
      = (c + p - x) ^ 2 * (3 * p - (c + p - x)) / 3 := by
    simp only [sphV]
    ring
  have hVnn : 0 ≤ sphV p c (c + p) - sphV p c x := by
    rw [hV]
    exact div_nonneg (mul_nonneg (sq_nonneg _) (by linarith)) (by norm_num)
  have hIa : sphIa p c (c + p) - sphIa p c x
      = (c + p - x) ^ 3
        * (3 * (c + p - x) ^ 2 - 15 * p * (c + p - x) + 20 * p ^ 2) / 60 := by
    simp only [sphIa]
    ring
  have hIaq : 0 ≤ 3 * (c + p - x) ^ 2 - 15 * p * (c + p - x) + 20 * p ^ 2 :=
    quad_cert_twenty p (c + p - x)
  have hIann : 0 ≤ sphIa p c (c + p) - sphIa p c x := by
    rw [hIa]
    exact div_nonneg (mul_nonneg (pow_nonneg ht0 3) hIaq) (by norm_num)
  have hIbkey : (sphV p c (c + p) - sphV p c x) * (sphIb p c (c + p) - sphIb p c x)
      = (c * (sphV p c (c + p) - sphV p c x)
          - (p * (c + p - x) ^ 3 - (c + p - x) ^ 4 / 4 - p ^ 2 * (c + p - x) ^ 2)) ^ 2
        + (c + p - x) ^ 6
          * (40 * p ^ 2 - 24 * p * (c + p - x) + 3 * (c + p - x) ^ 2) / 720 := by
    simp only [sphV, sphIb]
    ring
  have hcert : 0 ≤ 40 * p ^ 2 - 24 * p * (c + p - x) + 3 * (c + p - x) ^ 2 :=
    quad_cert_forty p (c + p - x) hp ht2
  have hIbnn : 0 ≤ sphIb p c (c + p) - sphIb p c x := by
    rcases eq_or_lt_of_le ht0 with h0 | h0
    · have hx : x = c + p := by linarith
      rw [hx]
      simp
    · have hVpos : 0 < sphV p c (c + p) - sphV p c x := by
        rw [hV]
        exact div_pos (mul_pos (pow_pos h0 2) (by linarith)) (by norm_num)
      have hprod : 0 ≤ (sphV p c (c + p) - sphV p c x) * (sphIb p c (c + p) - sphIb p c x) := by
        rw [hIbkey]
        exact add_nonneg (sq_nonneg _) (div_nonneg (mul_nonneg h6 hcert) (by norm_num))
      exact nonneg_of_mul_nonneg_right hprod hVpos
  have hCS : (sphM p c (c + p) - sphM p c x) ^ 2
      ≤ (sphV p c (c + p) - sphV p c x) * (sphI p c (c + p) - sphI p c x) := by
    have key : (sphV p c (c + p) - sphV p c x) * (sphI p c (c + p) - sphI p c x)
        - (sphM p c (c + p) - sphM p c x) ^ 2
        = (sphV p c (c + p) - sphV p c x) * (sphIa p c (c + p) - sphIa p c x)
          + (c + p - x) ^ 6
            * (40 * p ^ 2 - 24 * p * (c + p - x) + 3 * (c + p - x) ^ 2) / 720 := by
      simp only [sphV, sphM, sphI, sphIa, sphIb]
      ring
    have hx1 : 0 ≤ (sphV p c (c + p) - sphV p c x) * (sphIa p c (c + p) - sphIa p c x) :=
      mul_nonneg hVnn hIann
    have hx2 : 0 ≤ (c + p - x) ^ 6
        * (40 * p ^ 2 - 24 * p * (c + p - x) + 3 * (c + p - x) ^ 2) / 720 :=
      div_nonneg (mul_nonneg h6 hcert) (by norm_num)
    linarith [key, hx1, hx2]
  refine ⟨hVnn, ?_, hCS⟩
  have : sphI p c (c + p) - sphI p c x
      = (sphIa p c (c + p) - sphIa p c x) + (sphIb p c (c + p) - sphIb p c x) := by
    simp only [sphI]
    ring
  linarith [this, hIann, hIbnn]

/-- Slice of a sphere of radius `p` centered at `c` going up from the
equator: z-interval `[c, y]` with `y ≤ c + p`. -/
lemma PSD_sph_eq_up (p c y : ℚ) (h1 : c ≤ y) (h2 : y ≤ c + p) :
    PSD (sphV p c y - sphV p c c) (sphM p c y - sphM p c c) (sphI p c y - sphI p c c) := by
  have ht0 : 0 ≤ y - c := by linarith
  have htp : y - c ≤ p := by linarith
  have hp : 0 ≤ p := le_trans ht0 htp
  have h4 : 0 ≤ (y - c) ^ 4 := by positivity
  have hV : sphV p c y - sphV p c c = (y - c) * (3 * p ^ 2 - (y - c) ^ 2) / 3 := by
    simp only [sphV]
    ring
  have hVq : 0 ≤ 3 * p ^ 2 - (y - c) ^ 2 := sq_cert_three p (y - c) ht0 htp
  have hVnn : 0 ≤ sphV p c y - sphV p c c := by
    rw [hV]
    exact div_nonneg (mul_nonneg ht0 hVq) (by norm_num)
  have hIa : sphIa p c y - sphIa p c c
      = (y - c) * (15 * p ^ 4 - 10 * p ^ 2 * (y - c) ^ 2 + 3 * (y - c) ^ 4) / 60 := by
    simp only [sphIa]
    ring
  have hIaq : 0 ≤ 15 * p ^ 4 - 10 * p ^ 2 * (y - c) ^ 2 + 3 * (y - c) ^ 4 :=
    quart_cert_fifteen p (y - c) ht0 htp
  have hIann : 0 ≤ sphIa p c y - sphIa p c c := by
    rw [hIa]
    exact div_nonneg (mul_nonneg ht0 hIaq) (by norm_num)
  have hIbkey : (sphV p c y - sphV p c c) * (sphIb p c y - sphIb p c c)
      = (c * (sphV p c y - sphV p c c) + (p ^ 2 * (y - c) ^ 2 / 2 - (y - c) ^ 4 / 4)) ^ 2
        + (y - c) ^ 4
          * (60 * p ^ 4 - 44 * p ^ 2 * (y - c) ^ 2 + 3 * (y - c) ^ 4) / 720 := by
    simp only [sphV, sphIb]
    ring
  have hcert : 0 ≤ 60 * p ^ 4 - 44 * p ^ 2 * (y - c) ^ 2 + 3 * (y - c) ^ 4 :=
    quart_cert_sixty p (y - c) ht0 htp
  have hIbnn : 0 ≤ sphIb p c y - sphIb p c c := by
    rcases eq_or_lt_of_le ht0 with h0 | h0
    · have hy : y = c := by linarith
      rw [hy]
      simp
    · have hVpos : 0 < sphV p c y - sphV p c c := by
        rw [hV]
        have hq : 0 < 3 * p ^ 2 - (y - c) ^ 2 := by
          nlinarith [mul_pos h0 h0, mul_self_le_mul_self (le_of_lt h0) htp]
        exact div_pos (mul_pos h0 hq) (by norm_num)
      have hprod : 0 ≤ (sphV p c y - sphV p c c) * (sphIb p c y - sphIb p c c) := by
        rw [hIbkey]
        exact add_nonneg (sq_nonneg _) (div_nonneg (mul_nonneg h4 hcert) (by norm_num))
      exact nonneg_of_mul_nonneg_right hprod hVpos
  have hCS : (sphM p c y - sphM p c c) ^ 2
      ≤ (sphV p c y - sphV p c c) * (sphI p c y - sphI p c c) := by
    have key : (sphV p c y - sphV p c c) * (sphI p c y - sphI p c c)
        - (sphM p c y - sphM p c c) ^ 2
        = (sphV p c y - sphV p c c) * (sphIa p c y - sphIa p c c)
          + (y - c) ^ 4
            * (60 * p ^ 4 - 44 * p ^ 2 * (y - c) ^ 2 + 3 * (y - c) ^ 4) / 720 := by
      simp only [sphV, sphM, sphI, sphIa, sphIb]
      ring
    have hx1 : 0 ≤ (sphV p c y - sphV p c c) * (sphIa p c y - sphIa p c c) :=
      mul_nonneg hVnn hIann
    have hx2 : 0 ≤ (y - c) ^ 4
        * (60 * p ^ 4 - 44 * p ^ 2 * (y - c) ^ 2 + 3 * (y - c) ^ 4) / 720 :=
      div_nonneg (mul_nonneg h4 hcert) (by norm_num)
    linarith [key, hx1, hx2]
  refine ⟨hVnn, ?_, hCS⟩
  have : sphI p c y - sphI p c c
      = (sphIa p c y - sphIa p c c) + (sphIb p c y - sphIb p c c) := by
    simp only [sphI]
    ring
  linarith [this, hIann, hIbnn]

/-- Slice of a sphere of radius `p` centered at `c` going down from the
equator: z-interval `[x, c]` with `c - p ≤ x`. -/
lemma PSD_sph_eq_down (p c x : ℚ) (h1 : c - p ≤ x) (h2 : x ≤ c) :
    PSD (sphV p c c - sphV p c x) (sphM p c c - sphM p c x) (sphI p c c - sphI p c x) := by
  have ht0 : 0 ≤ c - x := by linarith
  have htp : c - x ≤ p := by linarith
  have hp : 0 ≤ p := le_trans ht0 htp
  have h4 : 0 ≤ (c - x) ^ 4 := by positivity
  have hV : sphV p c c - sphV p c x = (c - x) * (3 * p ^ 2 - (c - x) ^ 2) / 3 := by
    simp only [sphV]
    ring
  have hVq : 0 ≤ 3 * p ^ 2 - (c - x) ^ 2 := sq_cert_three p (c - x) ht0 htp
  have hVnn : 0 ≤ sphV p c c - sphV p c x := by
    rw [hV]
    exact div_nonneg (mul_nonneg ht0 hVq) (by norm_num)
  have hIa : sphIa p c c - sphIa p c x
      = (c - x) * (15 * p ^ 4 - 10 * p ^ 2 * (c - x) ^ 2 + 3 * (c - x) ^ 4) / 60 := by
    simp only [sphIa]
    ring
  have hIaq : 0 ≤ 15 * p ^ 4 - 10 * p ^ 2 * (c - x) ^ 2 + 3 * (c - x) ^ 4 :=
    quart_cert_fifteen p (c - x) ht0 htp
  have hIann : 0 ≤ sphIa p c c - sphIa p c x := by
    rw [hIa]
    exact div_nonneg (mul_nonneg ht0 hIaq) (by norm_num)
  have hIbkey : (sphV p c c - sphV p c x) * (sphIb p c c - sphIb p c x)
      = (c * (sphV p c c - sphV p c x) - (p ^ 2 * (c - x) ^ 2 / 2 - (c - x) ^ 4 / 4)) ^ 2
        + (c - x) ^ 4
          * (60 * p ^ 4 - 44 * p ^ 2 * (c - x) ^ 2 + 3 * (c - x) ^ 4) / 720 := by
    simp only [sphV, sphIb]
    ring
  have hcert : 0 ≤ 60 * p ^ 4 - 44 * p ^ 2 * (c - x) ^ 2 + 3 * (c - x) ^ 4 :=
    quart_cert_sixty p (c - x) ht0 htp
  have hIbnn : 0 ≤ sphIb p c c - sphIb p c x := by
    rcases eq_or_lt_of_le ht0 with h0 | h0
    · have hx : x = c := by linarith
      rw [hx]
      simp
    · have hVpos : 0 < sphV p c c - sphV p c x := by
        rw [hV]
        have hq : 0 < 3 * p ^ 2 - (c - x) ^ 2 := by
          nlinarith [mul_pos h0 h0, mul_self_le_mul_self (le_of_lt h0) htp]
        exact div_pos (mul_pos h0 hq) (by norm_num)
      have hprod : 0 ≤ (sphV p c c - sphV p c x) * (sphIb p c c - sphIb p c x) := by
        rw [hIbkey]
        exact add_nonneg (sq_nonneg _) (div_nonneg (mul_nonneg h4 hcert) (by norm_num))
      exact nonneg_of_mul_nonneg_right hprod hVpos
  have hCS : (sphM p c c - sphM p c x) ^ 2
      ≤ (sphV p c c - sphV p c x) * (sphI p c c - sphI p c x) := by
    have key : (sphV p c c - sphV p c x) * (sphI p c c - sphI p c x)
        - (sphM p c c - sphM p c x) ^ 2
        = (sphV p c c - sphV p c x) * (sphIa p c c - sphIa p c x)
          + (c - x) ^ 4
            * (60 * p ^ 4 - 44 * p ^ 2 * (c - x) ^ 2 + 3 * (c - x) ^ 4) / 720 := by
      simp only [sphV, sphM, sphI, sphIa, sphIb]
      ring
    have hx1 : 0 ≤ (sphV p c c - sphV p c x) * (sphIa p c c - sphIa p c x) :=
      mul_nonneg hVnn hIann
    have hx2 : 0 ≤ (c - x) ^ 4
        * (60 * p ^ 4 - 44 * p ^ 2 * (c - x) ^ 2 + 3 * (c - x) ^ 4) / 720 :=
      div_nonneg (mul_nonneg h4 hcert) (by norm_num)
    linarith [key, hx1, hx2]
  refine ⟨hVnn, ?_, hCS⟩
  have : sphI p c c - sphI p c x
      = (sphIa p c c - sphIa p c x) + (sphIb p c c - sphIb p c x) := by
    simp only [sphI]
    ring
  linarith [this, hIann, hIbnn]

/-- Slice of the straight cylinder section of radius `r`: any z-interval
`[x, y]`. -/
lemma PSD_cyl_slice (r x y : ℚ) (hxy : x ≤ y) :
    PSD (cylV r y - cylV r x) (cylM r y - cylM r x) (cylI r y - cylI r x) := by
  have hd : 0 ≤ y - x := by linarith
  have hVnn : 0 ≤ cylV r y - cylV r x := by
    have : cylV r y - cylV r x = r ^ 2 * (y - x) := by
      simp only [cylV]
      ring
    rw [this]
    exact mul_nonneg (sq_nonneg r) hd
  have hInn : 0 ≤ cylI r y - cylI r x := by
    have key : cylI r y - cylI r x
        = r ^ 4 * (y - x) / 4 + r ^ 2 * ((y - x) * (x ^ 2 + x * y + y ^ 2)) / 3 := by
      simp only [cylI]
      ring
    have hq : 0 ≤ x ^ 2 + x * y + y ^ 2 := by nlinarith [sq_nonneg (x + y), sq_nonneg x, sq_nonneg y]
    have h1 : 0 ≤ r ^ 4 * (y - x) / 4 :=
      div_nonneg (mul_nonneg (by positivity) hd) (by norm_num)
    have h2 : 0 ≤ r ^ 2 * ((y - x) * (x ^ 2 + x * y + y ^ 2)) / 3 :=
      div_nonneg (mul_nonneg (sq_nonneg r) (mul_nonneg hd hq)) (by norm_num)
    linarith [key, h1, h2]
  have hCS : (cylM r y - cylM r x) ^ 2 ≤ (cylV r y - cylV r x) * (cylI r y - cylI r x) := by
    have key : (cylV r y - cylV r x) * (cylI r y - cylI r x) - (cylM r y - cylM r x) ^ 2
        = r ^ 6 * (y - x) ^ 2 / 4 + r ^ 4 * (y - x) ^ 4 / 12 := by
      simp only [cylV, cylM, cylI]
      ring
    have h1 : 0 ≤ r ^ 6 * (y - x) ^ 2 / 4 := by positivity
    have h2 : 0 ≤ r ^ 4 * (y - x) ^ 4 / 12 := by positivity
    linarith [key, h1, h2]
  exact ⟨hVnn, hInn, hCS⟩

/-! ## PSD for whole drilled pieces, for arbitrary drill arguments

Each `sliceSum F a b c1 c2` is by definition the sum of the measures of a
slice `[a, clamp c1]` pinned at the bottom of the piece and a slice
`[clamp c2, b]` pinned at its top, so `PSD` follows from `PSD.add` and the
pinned-slice lemmas, for arbitrary real drill arguments. -/

/-- A whole sphere piece `[c - p, c + p]` with an arbitrary drill cut. -/
lemma PSD_sphere_piece_full (p c a b c1 c2 : ℚ) (hp : 0 ≤ p) (ha : a = c - p)
    (hb : b = c + p) :
    PSD (sliceSum (sphV p c) a b c1 c2) (sliceSum (sphM p c) a b c1 c2)
      (sliceSum (sphI p c) a b c1 c2) := by
  rw [ha, hb]
  have hab : c - p ≤ c + p := by linarith
  unfold sliceSum
  exact PSD.add
    (PSD_sph_bottom p c _ le_clampI (clampI_le hab))
    (PSD_sph_top p c _ le_clampI (clampI_le hab))

/-- A lower-hemisphere piece `[c - p, c]` with an arbitrary drill cut. -/
lemma PSD_sphere_piece_bottom (p c a b c1 c2 : ℚ) (hp : 0 ≤ p) (ha : a = c - p)
    (hb : b = c) :
    PSD (sliceSum (sphV p c) a b c1 c2) (sliceSum (sphM p c) a b c1 c2)
      (sliceSum (sphI p c) a b c1 c2) := by
  rw [ha, hb]
  have hab : c - p ≤ c := by linarith
  unfold sliceSum
  exact PSD.add
    (PSD_sph_bottom p c _ le_clampI (le_trans (clampI_le hab) (by linarith)))
    (PSD_sph_eq_down p c _ le_clampI (clampI_le hab))

/-- An upper-hemisphere piece `[c, c + p]` with an arbitrary drill cut. -/
lemma PSD_sphere_piece_top (p c a b c1 c2 : ℚ) (hp : 0 ≤ p) (ha : a = c)
    (hb : b = c + p) :
    PSD (sliceSum (sphV p c) a b c1 c2) (sliceSum (sphM p c) a b c1 c2)
      (sliceSum (sphI p c) a b c1 c2) := by
  rw [ha, hb]
  have hab : c ≤ c + p := by linarith
  unfold sliceSum
  exact PSD.add
    (PSD_sph_eq_up p c _ le_clampI (clampI_le hab))
    (PSD_sph_top p c _ (le_trans (by linarith) le_clampI) (clampI_le hab))

/-- A straight-cylinder piece `[a, b]` with an arbitrary drill cut. -/
lemma PSD_cyl_piece (r a b c1 c2 : ℚ) (hab : a ≤ b) :
    PSD (sliceSum (cylV r) a b c1 c2) (sliceSum (cylM r) a b c1 c2)
      (sliceSum (cylI r) a b c1 c2) := by
  unfold sliceSum
  exact PSD.add
    (PSD_cyl_slice r a _ le_clampI)
    (PSD_cyl_slice r _ b (clampI_le hab))

/-- The measure triple of the drilled sphere satisfies `PSD` for every level
(no range restriction: the drill endpoints are clamped inside). -/
lemma sphere_PSD (R h : ℚ) (hR : 0 ≤ R) :
    PSD (sphere_volume R h) (sphere_moment R h) (sphere_inertia_origin R h) := by
  unfold sphere_volume sphere_moment sphere_inertia_origin
  exact PSD_sphere_piece_full R 0 (-R) R h (h + 10 * R) hR (by ring) (by ring)

/-- The measure triple of the drilled capped cylinder satisfies `PSD` for
every level. -/
lemma cylinder_PSD (L r h : ℚ) (hr : 0 ≤ r) (hL : 2 * r ≤ L) :
    PSD (cylinder_volume L r h) (cylinder_moment L r h) (cylinder_inertia_origin L r h) := by
  unfold cylinder_volume cylinder_moment cylinder_inertia_origin
  exact PSD.add
    (PSD.add
      (PSD_sphere_piece_bottom r (r - L / 2) (-(L / 2)) (r - L / 2) h (h + 10 * L) hr
        (by ring) (by ring))
      (PSD_cyl_piece r (r - L / 2) (L / 2 - r) h (h + 10 * L) (by linarith)))
    (PSD_sphere_piece_top r (L / 2 - r) (L / 2 - r) (L / 2) h (h + 10 * L) hr
      (by ring) (by ring))

/-! ## Branch resolution for in-range and boundary levels -/

lemma sphere_slice_resolve (F : ℚ → ℚ) {R h : ℚ} (hR : 0 < R) (h1 : -R ≤ h) (h2 : h ≤ R) :
    sliceSum F (-R) R h (h + 10 * R) = F h - F (-R) :=
  sliceSum_in F (by linarith) h1 h2 (by linarith)

lemma sphere_volume_in {R h : ℚ} (hR : 0 < R) (h1 : -R ≤ h) (h2 : h ≤ R) :
    sphere_volume R h = sphV R 0 h - sphV R 0 (-R) := by
  unfold sphere_volume
  exact sphere_slice_resolve _ hR h1 h2

lemma sphere_moment_in {R h : ℚ} (hR : 0 < R) (h1 : -R ≤ h) (h2 : h ≤ R) :
    sphere_moment R h = sphM R 0 h - sphM R 0 (-R) := by
  unfold sphere_moment
  exact sphere_slice_resolve _ hR h1 h2

lemma cylSum_A (F G H : ℚ → ℚ) {L r h : ℚ} (hr : 0 < r) (hL : 2 * r ≤ L)
    (h1 : -(L / 2) ≤ h) (h2 : h ≤ r - L / 2) :
    sliceSum F (-(L / 2)) (r - L / 2) h (h + 10 * L)
      + sliceSum G (r - L / 2) (L / 2 - r) h (h + 10 * L)
      + sliceSum H (L / 2 - r) (L / 2) h (h + 10 * L)
    = F h - F (-(L / 2)) := by
  have hL0 : 0 < L := by linarith
  rw [sliceSum_in F (by linarith) h1 h2 (by linarith),
    sliceSum_above G (by linarith) h2 (by linarith),
    sliceSum_above H (by linarith) (by linarith) (by linarith)]
  ring

lemma cylSum_B (F G H : ℚ → ℚ) {L r h : ℚ} (hr : 0 < r) (hL : 2 * r ≤ L)
    (h1 : r - L / 2 ≤ h) (h2 : h ≤ L / 2 - r) :
    sliceSum F (-(L / 2)) (r - L / 2) h (h + 10 * L)
      + sliceSum G (r - L / 2) (L / 2 - r) h (h + 10 * L)
      + sliceSum H (L / 2 - r) (L / 2) h (h + 10 * L)
    = (F (r - L / 2) - F (-(L / 2))) + (G h - G (r - L / 2)) := by
  have hL0 : 0 < L := by linarith
  rw [sliceSum_below F (by linarith) h1 (by linarith),
    sliceSum_in G (by linarith) h1 h2 (by linarith),
    sliceSum_above H (by linarith) h2 (by linarith)]
  ring

lemma cylSum_C (F G H : ℚ → ℚ) {L r h : ℚ} (hr : 0 < r) (hL : 2 * r ≤ L)
    (h1 : L / 2 - r ≤ h) (h2 : h ≤ L / 2) :
    sliceSum F (-(L / 2)) (r - L / 2) h (h + 10 * L)
      + sliceSum G (r - L / 2) (L / 2 - r) h (h + 10 * L)
      + sliceSum H (L / 2 - r) (L / 2) h (h + 10 * L)
    = (F (r - L / 2) - F (-(L / 2))) + (G (L / 2 - r) - G (r - L / 2))
      + (H h - H (L / 2 - r)) := by
  have hL0 : 0 < L := by linarith
  rw [sliceSum_below F (by linarith) (by linarith) (by linarith),
    sliceSum_below G (by linarith) h1 (by linarith),
    sliceSum_in H (by linarith) h1 h2 (by linarith)]

lemma cylSum_full (F G H : ℚ → ℚ) {L r h : ℚ} (hr : 0 < r) (hL : 2 * r ≤ L)
    (h1 : L / 2 ≤ h) :
    sliceSum F (-(L / 2)) (r - L / 2) h (h + 10 * L)
      + sliceSum G (r - L / 2) (L / 2 - r) h (h + 10 * L)
      + sliceSum H (L / 2 - r) (L / 2) h (h + 10 * L)
    = (F (r - L / 2) - F (-(L / 2))) + (G (L / 2 - r) - G (r - L / 2))
      + (H (L / 2) - H (L / 2 - r)) := by
  have hL0 : 0 < L := by linarith
  rw [sliceSum_below F (by linarith) (by linarith) (by linarith),
    sliceSum_below G (by linarith) (by linarith) (by linarith),
    sliceSum_below H (by linarith) h1 (by linarith)]

lemma cylSum_zero (F G H : ℚ → ℚ) {L r h : ℚ} (hr : 0 < r) (hL : 2 * r ≤ L)
    (hlo : h ≤ -(L / 2)) (hhi : L / 2 ≤ h + 10 * L) :
    sliceSum F (-(L / 2)) (r - L / 2) h (h + 10 * L)
      + sliceSum G (r - L / 2) (L / 2 - r) h (h + 10 * L)
      + sliceSum H (L / 2 - r) (L / 2) h (h + 10 * L) = 0 := by
  have hL0 : 0 < L := by linarith
  rw [sliceSum_above F (by linarith) hlo (by linarith),
    sliceSum_above G (by linarith) (by linarith) (by linarith),
    sliceSum_above H (by linarith) (by linarith) (by linarith)]
  ring

lemma cylinder_volume_A {L r h : ℚ} (hr : 0 < r) (hL : 2 * r ≤ L)
    (h1 : -(L / 2) ≤ h) (h2 : h ≤ r - L / 2) :
    cylinder_volume L r h = sphV r (r - L / 2) h - sphV r (r - L / 2) (-(L / 2)) := by
  unfold cylinder_volume
  exact cylSum_A _ _ _ hr hL h1 h2

lemma cylinder_volume_B {L r h : ℚ} (hr : 0 < r) (hL : 2 * r ≤ L)
    (h1 : r - L / 2 ≤ h) (h2 : h ≤ L / 2 - r) :
    cylinder_volume L r h
      = (sphV r (r - L / 2) (r - L / 2) - sphV r (r - L / 2) (-(L / 2)))
        + (cylV r h - cylV r (r - L / 2)) := by
  unfold cylinder_volume
  exact cylSum_B _ _ _ hr hL h1 h2

lemma cylinder_volume_C {L r h : ℚ} (hr : 0 < r) (hL : 2 * r ≤ L)
    (h1 : L / 2 - r ≤ h) (h2 : h ≤ L / 2) :
    cylinder_volume L r h
      = (sphV r (r - L / 2) (r - L / 2) - sphV r (r - L / 2) (-(L / 2)))
        + (cylV r (L / 2 - r) - cylV r (r - L / 2))
        + (sphV r (L / 2 - r) h - sphV r (L / 2 - r) (L / 2 - r)) := by
  unfold cylinder_volume
  exact cylSum_C _ _ _ hr hL h1 h2

lemma cylinder_volume_full_level {L r h : ℚ} (hr : 0 < r) (hL : 2 * r ≤ L) (h1 : L / 2 ≤ h) :
    cylinder_volume L r h = cylinder_full_volume L r := by
  unfold cylinder_volume
  rw [cylSum_full _ _ _ hr hL h1]
  simp only [sphV, cylV, cylinder_full_volume]
  ring

lemma cylinder_moment_full_level {L r h : ℚ} (hr : 0 < r) (hL : 2 * r ≤ L) (h1 : L / 2 ≤ h) :
    cylinder_moment L r h = 0 := by
  unfold cylinder_moment
  rw [cylSum_full _ _ _ hr hL h1]
  simp only [sphM, cylM]
  ring

lemma cylinder_inertia_origin_full_level {L r h : ℚ} (hr : 0 < r) (hL : 2 * r ≤ L)
    (h1 : L / 2 ≤ h) : cylinder_inertia_origin L r h = cylinder_full_inertia L r := by
  unfold cylinder_inertia_origin
  rw [cylSum_full _ _ _ hr hL h1]
  simp only [sphI, sphIa, sphIb, cylI, cylinder_full_inertia]
  ring

lemma cylinder_volume_zero_level {L r h : ℚ} (hr : 0 < r) (hL : 2 * r ≤ L)
    (hlo : h ≤ -(L / 2)) (hhi : L / 2 ≤ h + 10 * L) : cylinder_volume L r h = 0 := by
  unfold cylinder_volume
  exact cylSum_zero _ _ _ hr hL hlo hhi

lemma cylinder_moment_zero_level {L r h : ℚ} (hr : 0 < r) (hL : 2 * r ≤ L)
    (hlo : h ≤ -(L / 2)) (hhi : L / 2 ≤ h + 10 * L) : cylinder_moment L r h = 0 := by
  unfold cylinder_moment
  exact cylSum_zero _ _ _ hr hL hlo hhi

lemma cylinder_inertia_origin_zero_level {L r h : ℚ} (hr : 0 < r) (hL : 2 * r ≤ L)
    (hlo : h ≤ -(L / 2)) (hhi : L / 2 ≤ h + 10 * L) : cylinder_inertia_origin L r h = 0 := by
  unfold cylinder_inertia_origin
  exact cylSum_zero _ _ _ hr hL hlo hhi

/-! ## Monotonicity of the volume antiderivatives -/

lemma sphV_mono {p c x y : ℚ} (h1 : c - p ≤ x) (hxy : x ≤ y) (h2 : y ≤ c + p) :
    sphV p c x ≤ sphV p c y := by
  have key : sphV p c y - sphV p c x
      = (y - x) * (3 * p ^ 2 - ((x - c) ^ 2 + (x - c) * (y - c) + (y - c) ^ 2)) / 3 := by
    simp only [sphV]
    ring
  have hb : (x - c) ^ 2 + (x - c) * (y - c) + (y - c) ^ 2 ≤ 3 * p ^ 2 := by
    have hu : 0 ≤ (p - (x - c)) * (p + (x - c)) :=
      mul_nonneg (by linarith) (by linarith)
    have hv : 0 ≤ (p - (y - c)) * (p + (y - c)) :=
      mul_nonneg (by linarith) (by linarith)
    nlinarith [sq_nonneg ((x - c) - (y - c))]
  have : 0 ≤ (y - x) * (3 * p ^ 2 - ((x - c) ^ 2 + (x - c) * (y - c) + (y - c) ^ 2)) / 3 :=
    div_nonneg (mul_nonneg (by linarith) (by linarith)) (by norm_num)
  linarith [key, this]

lemma cylV_mono {r x y : ℚ} (hxy : x ≤ y) : cylV r x ≤ cylV r y := by
  have : 0 ≤ r ^ 2 * (y - x) := mul_nonneg (sq_nonneg r) (by linarith)
  simp only [cylV]
  nlinarith [this]

/-! ## Centroid and central-moment algebra -/

lemma com_central_eq (V M I : ℚ) :
    I - V * (M / V) ^ 2 = I - 2 * (M / V) * M + (M / V) ^ 2 * V := by
  rcases eq_or_ne V 0 with hV | hV
  · rw [hV]
    simp
  · field_simp
    ring

lemma com_central_nonneg {V M I : ℚ} (hP : PSD V M I) :
    0 ≤ I - 2 * (M / V) * M + (M / V) ^ 2 * V := by
  obtain ⟨hV, hI, hC⟩ := hP
  rcases eq_or_lt_of_le hV with hV0 | hVpos
  · rw [← hV0]
    simpa using hI
  · have key : I - 2 * (M / V) * M + (M / V) ^ 2 * V = I - M ^ 2 / V := by
      field_simp
      ring
    rw [key, sub_nonneg, div_le_iff hVpos]
    linarith [hC]

lemma linspace25_getElem (a b : ℚ) {i : ℕ} (h : i < 25) :
    (linspace a b 25)[i]? = some (a + (b - a) * (i : ℚ) / 24) := by
  unfold linspace
  rw [List.getElem?_map]
  rw [show (List.range 25)[i]? = some i from by simp [List.getElem?_range, h]]
  simp only [Option.map_some']
  norm_num

lemma sphere_inertia_eq_origin (R h : ℚ) : sphere_inertia R h = sphere_inertia_origin R h := by
  unfold sphere_inertia sphere_matrix_of_inertia_xx
  ring

lemma cylinder_inertia_eq_origin (L r h : ℚ) :
    cylinder_inertia L r h = cylinder_inertia_origin L r h := by
  unfold cylinder_inertia cylinder_matrix_of_inertia_xx
  ring

/-! ## Claim theorems -/

/-- C1: for a sphere of radius `R` centered at the origin and any level
`h` in the clamped range `[-R, R]`, the evaluator returns exactly the
spherical-cap volume with cap height `ch = h + R`:
`volume = π * ch^2 * (3R - ch) / 3` (stated with the common factor π
divided out, as everywhere in this file). -/
theorem sphere_cap_volume_formula (R h : ℚ) (hR : 0 < R) (h1 : -R ≤ h) (h2 : h ≤ R) :
    sphere_volume R h = (h + R) ^ 2 * (3 * R - (h + R)) / 3 := by
  rw [sphere_volume_in hR h1 h2]
  simp only [sphV]
  ring

theorem sphere_cap_volume_formula_witness :
    (0 : ℚ) < 1 ∧ ((-1 : ℚ) ≤ 0 ∧ (0 : ℚ) ≤ 1) ∧
      sphere_volume 1 0 = (0 + 1) ^ 2 * (3 * 1 - (0 + 1)) / 3 :=
  ⟨by norm_num, ⟨by norm_num, by norm_num⟩,
    sphere_cap_volume_formula 1 0 (by norm_num) (by norm_num) (by norm_num)⟩

/-- C2: for every valid shape (sphere with `R > 0`, capped cylinder with
`r > 0` and `2r ≤ L`) and every level `h`, the returned inertia minus
`volume * center_of_mass_z^2` equals the filled region's central
(centroidal-axis) moment of inertia, and that central moment is
non-negative.  The central moment is written intrinsically as
`I_origin - 2 zbar M + zbar^2 V`, the expansion of
`∫ (a^2/4 + (z - zbar)^2) dV`; no range restriction on `h` is needed. -/
theorem parallel_axis_consistency (R L r h : ℚ) (hR : 0 < R) (hr : 0 < r) (hL : 2 * r ≤ L) :
    (sphere_inertia R h - sphere_volume R h * (sphere_center_of_mass R h) ^ 2
        = sphere_central_moment R h ∧ 0 ≤ sphere_central_moment R h) ∧
    (cylinder_inertia L r h - cylinder_volume L r h * (cylinder_center_of_mass L r h) ^ 2
        = cylinder_central_moment L r h ∧ 0 ≤ cylinder_central_moment L r h) := by
  refine ⟨⟨?_, ?_⟩, ⟨?_, ?_⟩⟩
  · rw [sphere_inertia_eq_origin]
    unfold sphere_central_moment sphere_center_of_mass
    exact com_central_eq (sphere_volume R h) (sphere_moment R h) (sphere_inertia_origin R h)
  · unfold sphere_central_moment sphere_center_of_mass
    exact com_central_nonneg (sphere_PSD R h (le_of_lt hR))
  · rw [cylinder_inertia_eq_origin]
    unfold cylinder_central_moment cylinder_center_of_mass
    exact com_central_eq (cylinder_volume L r h) (cylinder_moment L r h)
      (cylinder_inertia_origin L r h)
  · unfold cylinder_central_moment cylinder_center_of_mass
    exact com_central_nonneg (cylinder_PSD L r h (le_of_lt hr) hL)

theorem parallel_axis_consistency_witness :
    (0 : ℚ) < 1 ∧ (0 : ℚ) < 1 / 4 ∧ 2 * (1 / 4 : ℚ) ≤ 1 ∧
      (sphere_inertia 1 0 - sphere_volume 1 0 * (sphere_center_of_mass 1 0) ^ 2
          = sphere_central_moment 1 0 ∧ 0 ≤ sphere_central_moment 1 0) ∧
      (cylinder_inertia 1 (1 / 4) 0
            - cylinder_volume 1 (1 / 4) 0 * (cylinder_center_of_mass 1 (1 / 4) 0) ^ 2
          = cylinder_central_moment 1 (1 / 4) 0 ∧ 0 ≤ cylinder_central_moment 1 (1 / 4) 0) :=
  ⟨by norm_num, by norm_num, by norm_num,
    (parallel_axis_consistency 1 1 (1 / 4) 0 (by norm_num) (by norm_num) (by norm_num)).1,
    (parallel_axis_consistency 1 1 (1 / 4) 0 (by norm_num) (by norm_num) (by norm_num)).2⟩

/-- C3: for every valid shape and any two levels `a ≤ b` within the shape's
valid range, the returned volume is non-decreasing: `volume a ≤ volume b`. -/
theorem volume_monotonic (R L r a b : ℚ) (hR : 0 < R) (hr : 0 < r) (hL : 2 * r ≤ L)
    (hab : a ≤ b) :
    (-R ≤ a → b ≤ R → sphere_volume R a ≤ sphere_volume R b) ∧
    (-(L / 2) ≤ a → b ≤ L / 2 → cylinder_volume L r a ≤ cylinder_volume L r b) := by
  constructor
  · intro ha hb
    rw [sphere_volume_in hR ha (by linarith), sphere_volume_in hR (by linarith) hb]
    have := @sphV_mono R 0 a b (by linarith) hab (by linarith)
    linarith
  · intro ha hb
    rcases le_total b (r - L / 2) with hbA | hbA
    · rw [cylinder_volume_A hr hL ha (by linarith),
        cylinder_volume_A hr hL (by linarith) hbA]
      have := @sphV_mono r (r - L / 2) a b (by linarith) hab (by linarith)
      linarith
    · rcases le_total b (L / 2 - r) with hbB | hbB
      · rcases le_total a (r - L / 2) with haA | haA
        · rw [cylinder_volume_A hr hL ha haA, cylinder_volume_B hr hL hbA hbB]
          have hf := @sphV_mono r (r - L / 2) a (r - L / 2) (by linarith) haA (by linarith)
          have hg := @cylV_mono r (r - L / 2) b hbA
          linarith
        · rw [cylinder_volume_B hr hL haA (by linarith), cylinder_volume_B hr hL hbA hbB]
          have hg := @cylV_mono r a b hab
          linarith
      · rcases le_total a (r - L / 2) with haA | haA
        · rw [cylinder_volume_A hr hL ha haA, cylinder_volume_C hr hL hbB hb]
          have hf := @sphV_mono r (r - L / 2) a (r - L / 2) (by linarith) haA (by linarith)
          have hg := @cylV_mono r (r - L / 2) (L / 2 - r) (by linarith)
          have hh := @sphV_mono r (L / 2 - r) (L / 2 - r) b (by linarith) hbB (by linarith)
          linarith
        · rcases le_total a (L / 2 - r) with haB | haB
          · rw [cylinder_volume_B hr hL haA haB, cylinder_volume_C hr hL hbB hb]
            have hg := @cylV_mono r a (L / 2 - r) haB
            have hh := @sphV_mono r (L / 2 - r) (L / 2 - r) b (by linarith) hbB (by linarith)
            linarith
          · rw [cylinder_volume_C hr hL haB (by linarith), cylinder_volume_C hr hL hbB hb]
            have hh := @sphV_mono r (L / 2 - r) a b (by linarith) hab (by linarith)
            linarith

theorem volume_monotonic_witness :
    (0 : ℚ) < 1 ∧ (0 : ℚ) < 1 / 4 ∧ 2 * (1 / 4 : ℚ) ≤ 1 ∧ (0 : ℚ) ≤ 1 / 4 ∧
      sphere_volume 1 0 ≤ sphere_volume 1 (1 / 4) ∧
      cylinder_volume 1 (1 / 4) 0 ≤ cylinder_volume 1 (1 / 4) (1 / 4) :=
  ⟨by norm_num, by norm_num, by norm_num, by norm_num,
    (volume_monotonic 1 1 (1 / 4) 0 (1 / 4) (by norm_num) (by norm_num) (by norm_num)
      (by norm_num)).1 (by norm_num) (by norm_num),
    (volume_monotonic 1 1 (1 / 4) 0 (1 / 4) (by norm_num) (by norm_num) (by norm_num)
      (by norm_num)).2 (by norm_num) (by norm_num)⟩

/-- C5: for a sphere of radius `R` and every `h` in `[-R, R]`, the cap below
`h` and the cap below `-h` together make up the full sphere:
`volume h + volume (-h) = 4 R^3 / 3` (times π). -/
theorem sphere_cap_complement (R h : ℚ) (hR : 0 < R) (h1 : -R ≤ h) (h2 : h ≤ R) :
    sphere_volume R h + sphere_volume R (-h) = sphere_full_volume R := by
  rw [sphere_volume_in hR h1 h2, sphere_volume_in hR (by linarith) (by linarith)]
  simp only [sphV, sphere_full_volume]
  ring

theorem sphere_cap_complement_witness :
    (0 : ℚ) < 1 ∧ ((-1 : ℚ) ≤ 1 / 2 ∧ (1 / 2 : ℚ) ≤ 1) ∧
      sphere_volume 1 (1 / 2) + sphere_volume 1 (-(1 / 2)) = sphere_full_volume 1 :=
  ⟨by norm_num, ⟨by norm_num, by norm_num⟩,
    sphere_cap_complement 1 (1 / 2) (by norm_num) (by norm_num) (by norm_num)⟩

/-- C10: for every valid shape and every level in the valid range, the
returned inertia is non-negative: it equals the origin inertia (central
moment plus parallel-axis term), which is a non-negative measure of the
filled region. -/
theorem inertia_nonneg (R L r hs hc : ℚ) (hR : 0 < R) (hr : 0 < r) (hL : 2 * r ≤ L)
    (hs1 : -R ≤ hs) (hs2 : hs ≤ R) (hc1 : -(L / 2) ≤ hc) (hc2 : hc ≤ L / 2) :
    0 ≤ sphere_inertia R hs ∧ 0 ≤ cylinder_inertia L r hc := by
  rw [sphere_inertia_eq_origin, cylinder_inertia_eq_origin]
  exact ⟨(sphere_PSD R hs (le_of_lt hR)).2.1, (cylinder_PSD L r hc (le_of_lt hr) hL).2.1⟩

/-- C4 counterexample: the claim says every level `h ≤ -L/2` makes all three
properties zero, but for the capped cylinder with `L = 1`, `r = 1/4` at
`h = -10` the finite drill `[h, h + 10 L] = [-10, 0]` no longer reaches the
upper half of the solid, so the returned volume is `5π/192`, not `0`. -/
theorem cylinder_below_bottom_counterexample : cylinder_volume 1 (1 / 4) (-10) ≠ 0 := by
  norm_num [cylinder_volume, sliceSum, clampI, min_def, max_def, sphV, cylV]

/-- C4 (amended): both shapes return volume 0 at the bottom-most level and
the full volume at the top-most level; for the capped cylinder every level
in `[-19L/2, -L/2]` (the range in which the finite drill of height `10 L`
still covers the whole solid) gives the all-zero record, and every level
`h ≥ L/2` gives the full volume, centroid `0` and the full-solid axial
inertia about the origin. -/
theorem boundary_values (R L r : ℚ) (hR : 0 < R) (hr : 0 < r) (hL : 2 * r ≤ L) :
    sphere_volume R (-R) = 0 ∧ sphere_volume R R = sphere_full_volume R ∧
    cylinder_volume L r (-(L / 2)) = 0 ∧
    cylinder_volume L r (L / 2) = cylinder_full_volume L r ∧
    (∀ h, -19 * L / 2 ≤ h → h ≤ -(L / 2) → evaluate_cylinder_with_caps L r h = (0, 0, 0)) ∧
    (∀ h, L / 2 ≤ h → evaluate_cylinder_with_caps L r h
        = (cylinder_full_volume L r, 0, cylinder_full_inertia L r)) := by
  refine ⟨?_, ?_, ?_, ?_, ?_, ?_⟩
  · rw [sphere_volume_in hR (le_refl (-R)) (by linarith)]
    exact sub_self _
  · rw [sphere_volume_in hR (by linarith) (le_refl R)]
    simp only [sphV, sphere_full_volume]
    ring
  · exact cylinder_volume_zero_level hr hL (le_refl _) (by linarith)
  · exact cylinder_volume_full_level hr hL (le_refl _)
  · intro h hlo hhi
    have hV := cylinder_volume_zero_level hr hL hhi (by linarith)
    have hM := cylinder_moment_zero_level hr hL hhi (by linarith)
    have hI := cylinder_inertia_origin_zero_level hr hL hhi (by linarith)
    unfold evaluate_cylinder_with_caps cylinder_inertia cylinder_matrix_of_inertia_xx
      cylinder_center_of_mass
    rw [hV, hM, hI]
    norm_num
  · intro h hh
    have hV := cylinder_volume_full_level hr hL hh
    have hM := cylinder_moment_full_level hr hL hh
    have hI := cylinder_inertia_origin_full_level hr hL hh
    unfold evaluate_cylinder_with_caps cylinder_inertia cylinder_matrix_of_inertia_xx
      cylinder_center_of_mass
    rw [hV, hM, hI]
    norm_num

theorem boundary_values_witness :
    (0 : ℚ) < 1 ∧ (0 : ℚ) < 1 / 4 ∧ 2 * (1 / 4 : ℚ) ≤ 1 ∧
      sphere_volume 1 (-1) = 0 ∧ sphere_volume 1 1 = sphere_full_volume 1 ∧
      cylinder_volume 1 (1 / 4) (-(1 / 2)) = 0 ∧
      cylinder_volume 1 (1 / 4) (1 / 2) = cylinder_full_volume 1 (1 / 4) ∧
      evaluate_cylinder_with_caps 1 (1 / 4) (-1) = (0, 0, 0) ∧
      evaluate_cylinder_with_caps 1 (1 / 4) 1
        = (cylinder_full_volume 1 (1 / 4), 0, cylinder_full_inertia 1 (1 / 4)) :=
  ⟨by norm_num, by norm_num, by norm_num,
    (boundary_values 1 1 (1 / 4) (by norm_num) (by norm_num) (by norm_num)).1,
    (boundary_values 1 1 (1 / 4) (by norm_num) (by norm_num) (by norm_num)).2.1,
    (boundary_values 1 1 (1 / 4) (by norm_num) (by norm_num) (by norm_num)).2.2.1,
    (boundary_values 1 1 (1 / 4) (by norm_num) (by norm_num) (by norm_num)).2.2.2.1,
    (boundary_values 1 1 (1 / 4) (by norm_num) (by norm_num) (by norm_num)).2.2.2.2.1
      (-1) (by norm_num) (by norm_num),
    (boundary_values 1 1 (1 / 4) (by norm_num) (by norm_num) (by norm_num)).2.2.2.2.2
      1 (by norm_num)⟩

/-- C6 counterexample: the claim says a level below the bottom is treated
exactly as if clamped, i.e. gives the empty result; but for the sphere of
radius 1 at `h = -10` the finite drill `[-10, 0]` misses the upper half, so
the returned volume is `2π/3`, not `0`. -/
theorem sphere_below_bottom_counterexample : sphere_volume 1 (-10) ≠ 0 := by
  norm_num [sphere_volume, sliceSum, clampI, min_def, max_def, sphV]

/-- C6 (amended): the evaluator is a total function (it never raises), and
the clamp semantics holds on a bounded range: for the sphere every level
`h ≥ -9R` behaves exactly as the clamped level (out-of-range levels give
the empty / full result), and likewise for the capped cylinder every level
`h ≥ -19L/2`.  Below those thresholds the finite drill (height `10R` resp.
`10L`) no longer covers the solid and the result differs from the clamped
one. -/
theorem clamp_equivalence (R L r h : ℚ) (hR : 0 < R) (hr : 0 < r) (hL : 2 * r ≤ L) :
    (-9 * R ≤ h → evaluate_sphere_parameters R h
        = evaluate_sphere_parameters R (clampI (-R) R h)) ∧
    (-19 * L / 2 ≤ h → evaluate_cylinder_with_caps L r h
        = evaluate_cylinder_with_caps L r (clampI (-(L / 2)) (L / 2) h)) := by
  constructor
  · intro hbound
    have hRR : -R ≤ R := by linarith
    have hcl : -R ≤ clampI (-R) R h := le_clampI
    have e1 : clampI (-R) R (clampI (-R) R h) = clampI (-R) R h :=
      clampI_clampI (le_refl (-R)) hRR (le_refl R)
    have e2 : clampI (-R) R (clampI (-R) R h + 10 * R) = clampI (-R) R (h + 10 * R) := by
      rw [clampI_of_ge hRR (by linarith), clampI_of_ge hRR (by linarith)]
    have eV : sphere_volume R (clampI (-R) R h) = sphere_volume R h := by
      unfold sphere_volume
      exact sliceSum_congr _ e1 e2
    have eM : sphere_moment R (clampI (-R) R h) = sphere_moment R h := by
      unfold sphere_moment
      exact sliceSum_congr _ e1 e2
    have eI : sphere_inertia_origin R (clampI (-R) R h) = sphere_inertia_origin R h := by
      unfold sphere_inertia_origin
      exact sliceSum_congr _ e1 e2
    unfold evaluate_sphere_parameters sphere_inertia sphere_matrix_of_inertia_xx
      sphere_center_of_mass
    rw [eV, eM, eI]
  · intro hbound
    have hL0 : 0 < L := by linarith
    have hcl : -(L / 2) ≤ clampI (-(L / 2)) (L / 2) h := le_clampI
    have p1lo : clampI (-(L / 2)) (r - L / 2) (clampI (-(L / 2)) (L / 2) h)
        = clampI (-(L / 2)) (r - L / 2) h :=
      clampI_clampI (le_refl _) (by linarith) (by linarith)
    have p2lo : clampI (r - L / 2) (L / 2 - r) (clampI (-(L / 2)) (L / 2) h)
        = clampI (r - L / 2) (L / 2 - r) h :=
      clampI_clampI (by linarith) (by linarith) (by linarith)
    have p3lo : clampI (L / 2 - r) (L / 2) (clampI (-(L / 2)) (L / 2) h)
        = clampI (L / 2 - r) (L / 2) h :=
      clampI_clampI (by linarith) (by linarith) (le_refl _)
    have p1hi : clampI (-(L / 2)) (r - L / 2) (clampI (-(L / 2)) (L / 2) h + 10 * L)
        = clampI (-(L / 2)) (r - L / 2) (h + 10 * L) :=
      clampI_eq_of_ge_both (by linarith) (by linarith) (by linarith)
    have p2hi : clampI (r - L / 2) (L / 2 - r) (clampI (-(L / 2)) (L / 2) h + 10 * L)
        = clampI (r - L / 2) (L / 2 - r) (h + 10 * L) :=
      clampI_eq_of_ge_both (by linarith) (by linarith) (by linarith)
    have p3hi : clampI (L / 2 - r) (L / 2) (clampI (-(L / 2)) (L / 2) h + 10 * L)
        = clampI (L / 2 - r) (L / 2) (h + 10 * L) :=
      clampI_eq_of_ge_both (by linarith) (by linarith) (by linarith)
    have eV : cylinder_volume L r (clampI (-(L / 2)) (L / 2) h) = cylinder_volume L r h := by
      unfold cylinder_volume
      rw [sliceSum_congr _ p1lo p1hi, sliceSum_congr _ p2lo p2hi, sliceSum_congr _ p3lo p3hi]
    have eM : cylinder_moment L r (clampI (-(L / 2)) (L / 2) h) = cylinder_moment L r h := by
      unfold cylinder_moment
      rw [sliceSum_congr _ p1lo p1hi, sliceSum_congr _ p2lo p2hi, sliceSum_congr _ p3lo p3hi]
    have eI : cylinder_inertia_origin L r (clampI (-(L / 2)) (L / 2) h)
        = cylinder_inertia_origin L r h := by
      unfold cylinder_inertia_origin
      rw [sliceSum_congr _ p1lo p1hi, sliceSum_congr _ p2lo p2hi, sliceSum_congr _ p3lo p3hi]
    unfold evaluate_cylinder_with_caps cylinder_inertia cylinder_matrix_of_inertia_xx
      cylinder_center_of_mass
    rw [eV, eM, eI]

theorem clamp_equivalence_witness :
    (0 : ℚ) < 1 ∧ (0 : ℚ) < 1 / 4 ∧ 2 * (1 / 4 : ℚ) ≤ 1 ∧
      evaluate_sphere_parameters 1 2 = evaluate_sphere_parameters 1 (clampI (-1) 1 2) ∧
      evaluate_cylinder_with_caps 1 (1 / 4) 2
        = evaluate_cylinder_with_caps 1 (1 / 4) (clampI (-(1 / 2)) (1 / 2) 2) :=
  ⟨by norm_num, by norm_num, by norm_num,
    (clamp_equivalence 1 1 (1 / 4) 2 (by norm_num) (by norm_num) (by norm_num)).1
      (by norm_num),
    (clamp_equivalence 1 1 (1 / 4) 2 (by norm_num) (by norm_num) (by norm_num)).2
      (by norm_num)⟩

/-- C7: for a sphere of radius `R > 0`: the center of mass at the top level
is `0` (full sphere); at `h = -R` the volume vanishes and `-R` is the
limiting value of the centroid, expressed by the squeeze
`0 ≤ center_of_mass h + R ≤ h + R` on `(-R, R]`; at `h = 0` the hemisphere
centroid is exactly `-3R/8` and the volume is `(2/3) R^3` (times π).  For
`R = 0.05` the centroid value is `-0.01875`. -/
theorem sphere_center_of_mass_limits (R : ℚ) (hR : 0 < R) :
    sphere_center_of_mass R R = 0 ∧
    (∀ h, -R < h → h ≤ R →
      0 ≤ sphere_center_of_mass R h + R ∧ sphere_center_of_mass R h + R ≤ h + R) ∧
    sphere_center_of_mass R 0 = -(3 * R / 8) ∧
    sphere_volume R 0 = 2 * R ^ 3 / 3 := by
  have hV0 : sphere_volume R 0 = 2 * R ^ 3 / 3 := by
    rw [sphere_volume_in hR (by linarith) (by linarith)]
    simp only [sphV]
    ring
  refine ⟨?_, ?_, ?_, hV0⟩
  · have hM : sphere_moment R R = 0 := by
      rw [sphere_moment_in hR (by linarith) (le_refl R)]
      simp only [sphM]
      ring
    unfold sphere_center_of_mass
    rw [hM, zero_div]
  · intro h hh1 hh2
    have hVin := sphere_volume_in hR (by linarith) hh2
    have hMin := sphere_moment_in hR (by linarith) hh2
    have hVval : sphere_volume R h = (h + R) ^ 2 * (3 * R - (h + R)) / 3 := by
      rw [hVin]
      simp only [sphV]
      ring
    have ht : 0 < h + R := by linarith
    have hVpos : 0 < sphere_volume R h := by
      rw [hVval]
      exact div_pos (mul_pos (pow_pos ht 2) (by linarith)) (by norm_num)
    have hnum : sphere_moment R h + R * sphere_volume R h
        = (h + R) ^ 3 * (8 * R - 3 * (h + R)) / 12 := by
      rw [hVin, hMin]
      simp only [sphV, sphM]
      ring
    have hnum_nonneg : 0 ≤ sphere_moment R h + R * sphere_volume R h := by
      rw [hnum]
      exact div_nonneg (mul_nonneg (pow_nonneg (le_of_lt ht) 3) (by linarith)) (by norm_num)
    have hupper : sphere_moment R h + R * sphere_volume R h
        ≤ (h + R) * sphere_volume R h := by
      have key : (h + R) * ((h + R) ^ 2 * (3 * R - (h + R)) / 3)
          - (h + R) ^ 3 * (8 * R - 3 * (h + R)) / 12
          = (h + R) ^ 3 * (4 * R - (h + R)) / 12 := by
        ring
      have hpos : 0 ≤ (h + R) ^ 3 * (4 * R - (h + R)) / 12 :=
        div_nonneg (mul_nonneg (pow_nonneg (le_of_lt ht) 3) (by linarith)) (by norm_num)
      rw [hnum, hVval]
      linarith [key, hpos]
    have hcom : sphere_center_of_mass R h + R
        = (sphere_moment R h + R * sphere_volume R h) / sphere_volume R h := by
      unfold sphere_center_of_mass
      field_simp
    rw [hcom]
    constructor
    · exact div_nonneg hnum_nonneg (le_of_lt hVpos)
    · rw [div_le_iff hVpos]
      linarith [hupper]
  · have hM0 : sphere_moment R 0 = -(R ^ 4 / 4) := by
      rw [sphere_moment_in hR (by linarith) (by linarith)]
      simp only [sphM]
      ring
    unfold sphere_center_of_mass
    rw [hM0, hV0, div_eq_iff (by positivity : (2 * R ^ 3 / 3 : ℚ) ≠ 0)]
    ring

theorem sphere_center_of_mass_limits_witness :
    (0 : ℚ) < 1 / 20 ∧
      sphere_center_of_mass (1 / 20) (1 / 20) = 0 ∧
      (0 ≤ sphere_center_of_mass (1 / 20) 0 + 1 / 20 ∧
        sphere_center_of_mass (1 / 20) 0 + 1 / 20 ≤ 0 + 1 / 20) ∧
      sphere_center_of_mass (1 / 20) 0 = -(3 * (1 / 20) / 8) ∧
      sphere_volume (1 / 20) 0 = 2 * (1 / 20) ^ 3 / 3 :=
  ⟨by norm_num,
    (sphere_center_of_mass_limits (1 / 20) (by norm_num)).1,
    (sphere_center_of_mass_limits (1 / 20) (by norm_num)).2.1 0 (by norm_num) (by norm_num),
    (sphere_center_of_mass_limits (1 / 20) (by norm_num)).2.2.1,
    (sphere_center_of_mass_limits (1 / 20) (by norm_num)).2.2.2⟩

/-- C8: a `TankShape` constructed with non-positive radius or length, or
with cap diameter exceeding the total length, is rejected with a
`ConfigurationError` at construction time; a successful construction stores
the supplied dimensions exactly (no silent adjustment), and evaluation is
only defined on constructed shapes, so no evaluation proceeds for a
rejected configuration.  The constructors are modelled from the spec (the
`SphericalTank` and `CylindricalTank` sources are not part of the supplied
material). -/
theorem configuration_rejection (radius total_length : ℚ) :
    ((radius ≤ 0 ∨ total_length ≤ 0 ∨ total_length < 2 * radius) →
      ∃ e, mkCylindricalTank radius total_length = Except.error e) ∧
    (∀ s, mkCylindricalTank radius total_length = Except.ok s →
      s = TankShape.cylinderWithCaps radius (total_length - 2 * radius) radius ∧
        0 < radius ∧ 0 < total_length ∧ 2 * radius ≤ total_length) ∧
    (radius ≤ 0 → ∃ e, mkSphericalTank radius = Except.error e) ∧
    (∀ s, mkSphericalTank radius = Except.ok s → s = TankShape.sphere radius ∧ 0 < radius) := by
  unfold mkCylindricalTank mkSphericalTank
  refine ⟨?_, ?_, ?_, ?_⟩
  · intro hbad
    by_cases h1 : radius ≤ 0 ∨ total_length ≤ 0
    · rw [if_pos h1]
      exact ⟨_, rfl⟩
    · rw [if_neg h1]
      have h2 : total_length < 2 * radius := by
        rcases hbad with hb | hb | hb
        · exact absurd (Or.inl hb) h1
        · exact absurd (Or.inr hb) h1
        · exact hb
      rw [if_pos h2]
      exact ⟨_, rfl⟩
  · intro s hs
    by_cases h1 : radius ≤ 0 ∨ total_length ≤ 0
    · rw [if_pos h1] at hs
      simp at hs
    · rw [if_neg h1] at hs
      by_cases h2 : total_length < 2 * radius
      · rw [if_pos h2] at hs
        simp at hs
      · rw [if_neg h2] at hs
        push_neg at h1 h2
        simp only [Except.ok.injEq] at hs
        exact ⟨hs.symm, h1.1, h1.2, h2⟩
  · intro hb
    rw [if_pos hb]
    exact ⟨_, rfl⟩
  · intro s hs
    by_cases h1 : radius ≤ 0
    · rw [if_pos h1] at hs
      simp at hs
    · rw [if_neg h1] at hs
      simp only [Except.ok.injEq] at hs
      exact ⟨hs.symm, lt_of_not_le h1⟩

theorem configuration_rejection_witness :
    (∃ e, mkCylindricalTank (-1) 1 = Except.error e) ∧
      (∃ e, mkSphericalTank (-1) = Except.error e) ∧
      (∀ s, mkCylindricalTank 1 (1 / 2) = Except.ok s →
        s = TankShape.cylinderWithCaps 1 (1 / 2 - 2 * 1) 1 ∧
          (0 : ℚ) < 1 ∧ (0 : ℚ) < 1 / 2 ∧ (2 * 1 : ℚ) ≤ 1 / 2) :=
  ⟨(configuration_rejection (-1) 1).1 (Or.inl (by norm_num)),
    (configuration_rejection (-1) 1).2.2.1 (by norm_num),
    (configuration_rejection 1 (1 / 2)).2.1⟩

/-- C9: the tabulation harness emits exactly one record per sampled level
(25 rows for 25 levels), each record being the list
`[level_height, volume, center_of_mass, inertia]` in that fixed order
(matching the header row), and the sampled levels are 25 equally spaced
points spanning the shape's full valid range with both endpoints
included. -/
theorem tabulated_rows (R L r : ℚ) (i : ℕ) (hi : i < 25) :
    (sphere_expected_rows R).length = 25 ∧
    (cylinder_expected_rows L r).length = 25 ∧
    (sphere_expected_rows R)[i]? = some [sphere_level R i,
      sphere_volume R (sphere_level R i), sphere_center_of_mass R (sphere_level R i),
      sphere_inertia R (sphere_level R i)] ∧
    (cylinder_expected_rows L r)[i]? = some [cylinder_level L i,
      cylinder_volume L r (cylinder_level L i),
      cylinder_center_of_mass L r (cylinder_level L i),
      cylinder_inertia L r (cylinder_level L i)] ∧
    sphere_level R 0 = -R ∧ sphere_level R 24 = R ∧
    cylinder_level L 0 = -(L / 2) ∧ cylinder_level L 24 = L / 2 ∧
    expected_header = ["level_height", "volume", "center_of_mass", "inertia"] ∧
    (i < 24 → sphere_level R (i + 1) - sphere_level R i = 2 * R / 24 ∧
      cylinder_level L (i + 1) - cylinder_level L i = L / 24) := by
  refine ⟨?_, ?_, ?_, ?_, ?_, ?_, ?_, ?_, rfl, ?_⟩
  · unfold sphere_expected_rows linspace
    rw [List.length_map, List.length_map, List.length_range]
  · unfold cylinder_expected_rows linspace
    rw [List.length_map, List.length_map, List.length_range]
  · unfold sphere_expected_rows
    rw [List.getElem?_map, linspace25_getElem (-R) R hi]
    simp only [Option.map_some']
    have e : -R + (R - -R) * (i : ℚ) / 24 = sphere_level R i := by
      unfold sphere_level
      ring
    rw [e]
  · unfold cylinder_expected_rows
    rw [List.getElem?_map, linspace25_getElem (-(L / 2)) (L / 2) hi]
    simp only [Option.map_some']
    have e : -(L / 2) + (L / 2 - -(L / 2)) * (i : ℚ) / 24 = cylinder_level L i := by
      unfold cylinder_level
      ring
    rw [e]
  · unfold sphere_level
    norm_num
  · unfold sphere_level
    norm_num
    ring
  · unfold cylinder_level
    norm_num
  · unfold cylinder_level
    norm_num
    ring
  · intro hi24
    constructor
    · unfold sphere_level
      push_cast
      ring
    · unfold cylinder_level
      push_cast
      ring

theorem tabulated_rows_witness :
    (sphere_expected_rows 1).length = 25 ∧ (cylinder_expected_rows 1 (1 / 4)).length = 25 ∧
      sphere_level 1 0 = -1 ∧
      (sphere_level 1 (0 + 1) - sphere_level 1 0 = 2 * 1 / 24 ∧
        cylinder_level 1 (0 + 1) - cylinder_level 1 0 = 1 / 24) :=
  ⟨(tabulated_rows 1 1 (1 / 4) 0 (by norm_num)).1,
    (tabulated_rows 1 1 (1 / 4) 0 (by norm_num)).2.1,
    (tabulated_rows 1 1 (1 / 4) 0 (by norm_num)).2.2.2.2.1,
    (tabulated_rows 1 1 (1 / 4) 0 (by norm_num)).2.2.2.2.2.2.2.2.2 (by norm_num)⟩

theorem inertia_nonneg_witness :
    (0 : ℚ) < 1 ∧ (0 : ℚ) < 1 / 4 ∧ 2 * (1 / 4 : ℚ) ≤ 1 ∧
      0 ≤ sphere_inertia 1 0 ∧ 0 ≤ cylinder_inertia 1 (1 / 4) 0 :=
  ⟨by norm_num, by norm_num, by norm_num,
    (inertia_nonneg 1 1 (1 / 4) 0 0 (by norm_num) (by norm_num) (by norm_num) (by norm_num)
      (by norm_num) (by norm_num) (by norm_num)).1,
    (inertia_nonneg 1 1 (1 / 4) 0 0 (by norm_num) (by norm_num) (by norm_num) (by norm_num)
      (by norm_num) (by norm_num) (by norm_num)).2⟩

end TankGeometry
